import Mathlib

/-!
Verification of the wellbot-fer-backend core state components.

The repository keeps two kinds of mutable state:

* two ring logs of recent request / result events, implemented twice
  (module-level deques in `fer_status_tracker.py`, and the `StatusTracker`
  class in `status_tracker.py`), both built on `collections.deque(maxlen=100)`;
* the aggregation buffer described by the specification (its implementation
  is not among the source files of this snapshot, so it is modelled from the
  specification where needed).

Python values are embedded shallowly: dict entries with a fixed key set
become structures, `deque(maxlen=n)` becomes a `List` (oldest first) with an
append that evicts the head at capacity, `Optional[str]` becomes
`Option String`, floats that are only stored and compared become `ℚ`, and
instants become integers (seconds).  A Python `try/except` body is embedded
as an `Except String` computation and the surrounding handler as `pyTry`.
-/

/-- Python `body` wrapped in `try: ... except: return fallback`. -/
def pyTry {α : Type} (body : Except String α) (fallback : α) : α :=
  match body with
  | .ok a => a
  | .error _ => fallback

/-- Python `s or d` for an optional string: `None` and `""` are falsy. -/
def pyOr (s : Option String) (d : String) : String :=
  match s with
  | none => d
  | some v => if v = "" then d else v

/-- `collections.deque(maxlen := cap).append e`: at capacity the oldest
(leftmost) element is evicted.  The list stores oldest first. -/
def dequeAppend {α : Type} (cap : Nat) (l : List α) (e : α) : List α :=
  if l.length < cap then l ++ [e] else l.tail ++ [e]

/-- A request log entry, the dict built by `log_request`. -/
structure ReqEntry where
  user_id : String
  timestamp : String
  filename : String
  status : String
deriving DecidableEq, Repr

/-- A result log entry, the dict built by `fer_status_tracker.log_result`. -/
structure ResEntry where
  user_id : String
  timestamp : String
  filename : String
  emotion : String
  emotion_confidence : ℚ
  db_write_success : Bool
  status : String
deriving DecidableEq, Repr

namespace FerStatusTracker

/-- The module-level state of `fer_status_tracker.py`: the two deques
`_recent_requests` and `_recent_results`, each `maxlen=100`, oldest first. -/
structure FerState where
  recent_requests : List ReqEntry
  recent_results : List ResEntry
deriving DecidableEq, Repr

/-- The state at process start: both deques empty. -/
def emptyFerState : FerState := ⟨[], []⟩

/-- Body of `log_request` (the code inside its `try`). -/
def log_request_body (st : FerState) (user_id timestamp : String)
    (filename : Option String) : Except String FerState := do
  let log_entry : ReqEntry :=
    ⟨user_id, timestamp, pyOr filename "image.jpg", "received"⟩
  let reqs := dequeAppend 100 st.recent_requests log_entry
  pure ⟨reqs, st.recent_results⟩

/-- `fer_status_tracker.log_request`: append a request entry; the
`except` clause swallows any error and leaves the state as it was. -/
def log_request (st : FerState) (user_id timestamp : String)
    (filename : Option String) : FerState :=
  pyTry (log_request_body st user_id timestamp filename) st

/-- Body of `log_result` (the code inside its `try`). -/
def log_result_body (st : FerState) (user_id timestamp emotion : String)
    (confidence : ℚ) (db_write_success : Bool) (filename : Option String) :
    Except String FerState := do
  let log_entry : ResEntry :=
    ⟨user_id, timestamp, pyOr filename "image.jpg", emotion, confidence,
      db_write_success, "completed"⟩
  let ress := dequeAppend 100 st.recent_results log_entry
  pure ⟨st.recent_requests, ress⟩

/-- `fer_status_tracker.log_result`: append a result entry; the
`except` clause swallows any error and leaves the state as it was. -/
def log_result (st : FerState) (user_id timestamp emotion : String)
    (confidence : ℚ) (db_write_success : Bool) (filename : Option String) :
    FerState :=
  pyTry (log_result_body st user_id timestamp emotion confidence
    db_write_success filename) st

/-- Body of `read_recent_requests`: snapshot, reverse (newest first),
filter by `user_id` when it is truthy, take the first `limit`. -/
def read_recent_requests_body (st : FerState) (limit : Nat)
    (user_id : Option String) : Except String (List ReqEntry) := do
  let all_entries := st.recent_requests.reverse
  let all_entries :=
    match user_id with
    | none => all_entries
    | some s =>
        if s = "" then all_entries
        else all_entries.filter (fun e => e.user_id = s)
  pure (all_entries.take limit)

/-- `fer_status_tracker.read_recent_requests`; the `except` clause
returns `[]`. -/
def read_recent_requests (st : FerState) (limit : Nat)
    (user_id : Option String) : List ReqEntry :=
  pyTry (read_recent_requests_body st limit user_id) []

/-- Body of `read_recent_results`: same shape as for requests. -/
def read_recent_results_body (st : FerState) (limit : Nat)
    (user_id : Option String) : Except String (List ResEntry) := do
  let all_entries := st.recent_results.reverse
  let all_entries :=
    match user_id with
    | none => all_entries
    | some s =>
        if s = "" then all_entries
        else all_entries.filter (fun e => e.user_id = s)
  pure (all_entries.take limit)

/-- `fer_status_tracker.read_recent_results`; the `except` clause
returns `[]`. -/
def read_recent_results (st : FerState) (limit : Nat)
    (user_id : Option String) : List ResEntry :=
  pyTry (read_recent_results_body st limit user_id) []

/-- `fer_status_tracker.clear_requests`. -/
def clear_requests (st : FerState) : FerState := ⟨[], st.recent_results⟩

/-- `fer_status_tracker.clear_results`. -/
def clear_results (st : FerState) : FerState := ⟨st.recent_requests, []⟩

/-- The mutating operations of `fer_status_tracker.py` (reads do not
change the state). -/
inductive FerOp : Type
  | logRequest (user_id timestamp : String) (filename : Option String)
  | logResult (user_id timestamp emotion : String) (confidence : ℚ)
      (db_write_success : Bool) (filename : Option String)
  | clearRequests
  | clearResults

/-- Apply one mutating operation. -/
def runFerOp (st : FerState) : FerOp → FerState
  | .logRequest u t f => log_request st u t f
  | .logResult u t e c d f => log_result st u t e c d f
  | .clearRequests => clear_requests st
  | .clearResults => clear_results st

/-- Apply a sequence of mutating operations, oldest first. -/
def runFerOps (st : FerState) (ops : List FerOp) : FerState :=
  ops.foldl runFerOp st

end FerStatusTracker

namespace StatusTracker

/-- A result entry of the `StatusTracker` class (it carries
`aggregation_complete` instead of `filename`). -/
structure STResEntry where
  user_id : String
  timestamp : String
  emotion : String
  emotion_confidence : ℚ
  db_write_success : Bool
  aggregation_complete : Bool
  status : String
deriving DecidableEq, Repr

/-- The state of a `StatusTracker` instance (constructed with the default
capacities `max_recent_requests = max_recent_results = 100`). -/
structure STState where
  recent_requests : List ReqEntry
  recent_results : List STResEntry
deriving DecidableEq, Repr

/-- A freshly constructed `StatusTracker()`. -/
def emptySTState : STState := ⟨[], []⟩

/-- `StatusTracker.log_request`.  The caller passes a `datetime`; its
`isoformat()` rendering is the `timestamp` string here. -/
def log_request (st : STState) (user_id timestamp : String)
    (filename : Option String) : STState :=
  ⟨dequeAppend 100 st.recent_requests
      ⟨user_id, timestamp, pyOr filename "image.jpg", "received"⟩,
    st.recent_results⟩

/-- `StatusTracker.log_result`. -/
def log_result (st : STState) (user_id timestamp emotion : String)
    (confidence : ℚ) (db_write_success aggregation_complete : Bool) :
    STState :=
  ⟨st.recent_requests,
    dequeAppend 100 st.recent_results
      ⟨user_id, timestamp, emotion, confidence, db_write_success,
        aggregation_complete, "completed"⟩⟩

/-- The loop of `StatusTracker.get_recent_requests`: iterate newest first,
skip entries whose timestamp fails to parse (`except: continue`), keep
entries at or after the cutoff, and break once `limit` entries are
collected (the length check runs only after an entry was appended). -/
def get_recent_requests_loop (parse : String → Option Int) (cutoff : Int)
    (limit : Nat) : List ReqEntry → List ReqEntry → List ReqEntry
  | [], recent => recent
  | e :: rest, recent =>
      match parse e.timestamp with
      | none => get_recent_requests_loop parse cutoff limit rest recent
      | some t =>
          if cutoff ≤ t then
            let recent1 := recent ++ [e]
            if limit ≤ recent1.length then recent1
            else get_recent_requests_loop parse cutoff limit rest recent1
          else get_recent_requests_loop parse cutoff limit rest recent

/-- `StatusTracker.get_recent_requests`.  Instants are integer seconds;
`parse` stands for `datetime.fromisoformat` applied to the stored string
after the `replace` of a trailing Z, returning `none` when Python would
raise; the cutoff is `now - minutes` minutes. -/
def get_recent_requests (st : STState) (parse : String → Option Int)
    (now : Int) (minutes : Int) (limit : Nat) : List ReqEntry :=
  get_recent_requests_loop parse (now - minutes * 60) limit
    st.recent_requests.reverse []

/-- `StatusTracker.get_recent_results`:
`list(reversed(list(self.recent_results)[-limit:]))`.  Python slicing with
`-limit` keeps the whole list when `limit = 0` and the last `limit`
elements otherwise. -/
def get_recent_results (st : STState) (limit : Nat) : List STResEntry :=
  (if limit = 0 then st.recent_results
   else st.recent_results.drop (st.recent_results.length - limit)).reverse

/-- The mutating operations of a `StatusTracker` (it has no clears). -/
inductive STOp : Type
  | logRequest (user_id timestamp : String) (filename : Option String)
  | logResult (user_id timestamp emotion : String) (confidence : ℚ)
      (db_write_success aggregation_complete : Bool)

/-- Apply one mutating operation. -/
def runSTOp (st : STState) : STOp → STState
  | .logRequest u t f => log_request st u t f
  | .logResult u t e c d a => log_result st u t e c d a

/-- Apply a sequence of mutating operations, oldest first. -/
def runSTOps (st : STState) (ops : List STOp) : STState :=
  ops.foldl runSTOp st

end StatusTracker

namespace FerStatusTracker

/-- The arguments of one `fer_status_tracker.log_result` call. -/
structure LogResultArgs where
  user_id : String
  timestamp : String
  emotion : String
  confidence : ℚ
  db_write_success : Bool
  filename : Option String
deriving DecidableEq, Repr

/-- The result entry that `log_result` builds from its arguments. -/
def logResultEntry (a : LogResultArgs) : ResEntry :=
  ⟨a.user_id, a.timestamp, pyOr a.filename "image.jpg", a.emotion,
    a.confidence, a.db_write_success, "completed"⟩

/-- A sequence of `log_result` calls, oldest first. -/
def logResults (st : FerState) (args : List LogResultArgs) : FerState :=
  args.foldl
    (fun s a => log_result s a.user_id a.timestamp a.emotion a.confidence
      a.db_write_success a.filename) st

end FerStatusTracker

namespace StatusTracker

/-- The arguments of one `StatusTracker.log_result` call. -/
structure STLogResultArgs where
  user_id : String
  timestamp : String
  emotion : String
  confidence : ℚ
  db_write_success : Bool
  aggregation_complete : Bool
deriving DecidableEq, Repr

/-- The result entry that `StatusTracker.log_result` builds. -/
def stLogResultEntry (a : STLogResultArgs) : STResEntry :=
  ⟨a.user_id, a.timestamp, a.emotion, a.confidence, a.db_write_success,
    a.aggregation_complete, "completed"⟩

/-- A sequence of `StatusTracker.log_result` calls, oldest first. -/
def stLogResults (st : STState) (args : List STLogResultArgs) : STState :=
  args.foldl
    (fun s a => log_result s a.user_id a.timestamp a.emotion a.confidence
      a.db_write_success a.aggregation_complete) st

end StatusTracker

/-- A concrete batch of 101 `fer_status_tracker.log_result` calls. -/
def ferArgsSample : List FerStatusTracker.LogResultArgs :=
  List.replicate 101 ⟨"u", "t", "happy", 1, false, none⟩

/-- A concrete batch of 101 `StatusTracker.log_result` calls. -/
def stArgsSample : List StatusTracker.STLogResultArgs :=
  List.replicate 101 ⟨"u", "t", "happy", 1, false, false⟩

/-- A sample request entry for the concrete instances below. -/
def reqA : ReqEntry := ⟨"alice", "2024-01-01T00:00:00", "image.jpg", "received"⟩

/-- A sample request entry whose stored timestamp does not parse. -/
def reqB : ReqEntry := ⟨"bob", "not-a-timestamp", "image.jpg", "received"⟩

/-- A parse function under which every stored string is a valid instant. -/
def parseA : String → Option Int := fun _ => some 5

/-- A parse function that rejects exactly the malformed sample string. -/
def parseB : String → Option Int :=
  fun s => if s = "not-a-timestamp" then none else some 0

/-! ### AggregationBuffer, modelled from the specification -/

/-- Modelled from the spec: an Observation of the AggregationBuffer (the
component itself is absent from the source files of this snapshot, which
hold only the HTTP layer and the event logs); `{timestamp, label,
confidence}` with instants as natural-number seconds and confidence as a
rational. -/
structure Observation where
  timestamp : Nat
  label : String
  confidence : ℚ
deriving DecidableEq, Repr

/-- Modelled from the spec: the AggregatedResult emitted on window
closure. -/
structure AggregatedResult where
  identity : String
  label : String
  confidence : ℚ
  observation_count : Nat
deriving DecidableEq, Repr

/-- Modelled from the spec: the per-identity window map of the
AggregationBuffer; an identity with no open window maps to `[]`. -/
def AggState : Type := String → List Observation

/-- Modelled from the spec: a buffer with no open windows. -/
def emptyAggState : AggState := fun _ => []

/-- Modelled from the spec: winner selection — candidates are the
observations not labeled the sentinel; the winner has maximal confidence
with ties resolved to the earliest-inserted candidate; a window of only
sentinel observations yields the sentinel with confidence 0. -/
def selectWinner (w : List Observation) : String × ℚ :=
  let candidates := w.filter (fun o => o.label ≠ "none")
  match candidates with
  | [] => ("none", 0)
  | c :: cs =>
      let winner := cs.foldl
        (fun best o => if best.confidence < o.confidence then o else best) c
      (winner.label, winner.confidence)

/-- Modelled from the spec: `Ingest(identity, label, confidence, now)` —
append the observation to the identity's window (opening it if absent);
if the elapsed time since the window's first observation has reached
`duration`, emit the winner with the window size and clear the window,
else keep the window and emit nothing. -/
def Ingest (duration : Nat) (st : AggState) (identity label : String)
    (confidence : ℚ) (now : Nat) :
    Option AggregatedResult × AggState :=
  let w := st identity ++ [⟨now, label, confidence⟩]
  let start :=
    match st identity with
    | [] => now
    | o :: _ => o.timestamp
  let elapsed := now - start
  if duration ≤ elapsed then
    (some ⟨identity, (selectWinner w).1, (selectWinner w).2, w.length⟩,
      fun id2 => if id2 = identity then [] else st id2)
  else
    (none, fun id2 => if id2 = identity then w else st id2)

/-! ### The persistence and logging tail of `detect_emotion` -/

/-- Python `s.lower()`: lower-case each character (by character map, so
it evaluates structurally). -/
def pyLower (s : String) : String := String.mk (s.data.map Char.toLower)

/-- The classification dict `{"emotion": ..., "confidence": ...}` that
`predict_emotion` returns and `detect_emotion` forwards to its caller. -/
structure FerPrediction where
  emotion : String
  confidence : ℚ
deriving DecidableEq, Repr

/-- The persistence and result-logging tail of `detect_emotion` in
`main.py`: `db_write_success` starts `False`; when the emotion is not the
sentinel and a Supabase client exists, the insert is attempted and a
raising sink (`sinkRaises = true`) leaves `db_write_success` at `False`
while a successful insert sets it `True`; then `log_result` records the
outcome and the classification result is returned unchanged. -/
def detect_emotion_tail (supabasePresent sinkRaises : Bool)
    (st : FerStatusTracker.FerState) (validated_id timestamp : String)
    (result : FerPrediction) (filename : Option String) :
    FerStatusTracker.FerState × FerPrediction :=
  let db_write_success :=
    if pyLower result.emotion ≠ "none" ∧ supabasePresent = true then
      (if sinkRaises then false else true)
    else false
  (FerStatusTracker.log_result st validated_id timestamp result.emotion
    result.confidence db_write_success filename, result)

/-! ### Capacity lemmas -/

theorem dequeAppend_length_le {α : Type} {cap : Nat} {l : List α} (e : α)
    (h : l.length ≤ cap) (hcap : 0 < cap) :
    (dequeAppend cap l e).length ≤ cap := by
  unfold dequeAppend
  split
  · simpa using ‹l.length < cap›
  · rename_i hlt
    rcases l with _ | ⟨a, l⟩
    · exact absurd hcap (by simpa using hlt)
    · simp only [List.tail_cons, List.length_append, List.length_cons,
        List.length_nil] at h hlt ⊢
      omega

theorem FerStatusTracker.runFerOps_length_le (ops : List FerStatusTracker.FerOp)
    (st : FerStatusTracker.FerState)
    (hq : st.recent_requests.length ≤ 100)
    (hr : st.recent_results.length ≤ 100) :
    (FerStatusTracker.runFerOps st ops).recent_requests.length ≤ 100 ∧
    (FerStatusTracker.runFerOps st ops).recent_results.length ≤ 100 := by
  induction ops generalizing st with
  | nil => exact ⟨hq, hr⟩
  | cons op ops ih =>
      rcases op with ⟨u, t, f⟩ | ⟨u, t, e, c, d, f⟩ | _ | _
      · exact ih _ (dequeAppend_length_le _ hq (by norm_num)) hr
      · exact ih _ hq (dequeAppend_length_le _ hr (by norm_num))
      · exact ih (FerStatusTracker.clear_requests st)
          (by simp [FerStatusTracker.clear_requests]) hr
      · exact ih (FerStatusTracker.clear_results st) hq
          (by simp [FerStatusTracker.clear_results])

theorem StatusTracker.runSTOps_length_le (ops : List StatusTracker.STOp)
    (st : StatusTracker.STState)
    (hq : st.recent_requests.length ≤ 100)
    (hr : st.recent_results.length ≤ 100) :
    (StatusTracker.runSTOps st ops).recent_requests.length ≤ 100 ∧
    (StatusTracker.runSTOps st ops).recent_results.length ≤ 100 := by
  induction ops generalizing st with
  | nil => exact ⟨hq, hr⟩
  | cons op ops ih =>
      rcases op with ⟨u, t, f⟩ | ⟨u, t, e, c, d, a⟩
      · exact ih _ (dequeAppend_length_le _ hq (by norm_num)) hr
      · exact ih _ hq (dequeAppend_length_le _ hr (by norm_num))

/-- C2: after any sequence of append (`log_request` / `log_result`) and
clear operations starting from the empty state, each event log holds at
most 100 entries, so the two logs together hold at most 200; this holds
both for the `fer_status_tracker` module state and for a `StatusTracker`
instance. -/
theorem c2_ring_capacity_bound :
    (∀ ops : List FerStatusTracker.FerOp,
      (FerStatusTracker.runFerOps FerStatusTracker.emptyFerState
          ops).recent_requests.length ≤ 100 ∧
      (FerStatusTracker.runFerOps FerStatusTracker.emptyFerState
          ops).recent_results.length ≤ 100 ∧
      (FerStatusTracker.runFerOps FerStatusTracker.emptyFerState
            ops).recent_requests.length +
          (FerStatusTracker.runFerOps FerStatusTracker.emptyFerState
            ops).recent_results.length ≤ 200) ∧
    (∀ ops : List StatusTracker.STOp,
      (StatusTracker.runSTOps StatusTracker.emptySTState
          ops).recent_requests.length ≤ 100 ∧
      (StatusTracker.runSTOps StatusTracker.emptySTState
          ops).recent_results.length ≤ 100 ∧
      (StatusTracker.runSTOps StatusTracker.emptySTState
            ops).recent_requests.length +
          (StatusTracker.runSTOps StatusTracker.emptySTState
            ops).recent_results.length ≤ 200) := by
  constructor
  · intro ops
    have h := FerStatusTracker.runFerOps_length_le ops
      FerStatusTracker.emptyFerState (by simp [FerStatusTracker.emptyFerState])
      (by simp [FerStatusTracker.emptyFerState])
    exact ⟨h.1, h.2, by omega⟩
  · intro ops
    have h := StatusTracker.runSTOps_length_le ops
      StatusTracker.emptySTState (by simp [StatusTracker.emptySTState])
      (by simp [StatusTracker.emptySTState])
    exact ⟨h.1, h.2, by omega⟩

/-! ### Ring eviction: folding appends from the empty state keeps the
last 100 entries -/

theorem foldl_dequeAppend_eq_drop {α : Type} (cap : Nat) (hcap : 0 < cap)
    (es : List α) :
    ∀ acc : List α, acc.length ≤ cap →
      es.foldl (dequeAppend cap) acc
        = (acc ++ es).drop ((acc ++ es).length - cap) := by
  induction es with
  | nil =>
      intro acc h
      simp [Nat.sub_eq_zero_of_le h]
  | cons e es ih =>
      intro acc h
      rw [List.foldl_cons]
      by_cases hlt : acc.length < cap
      · rw [show dequeAppend cap acc e = acc ++ [e] from by
            simp [dequeAppend, hlt],
          ih (acc ++ [e]) (by simp; omega)]
        simp [List.append_assoc]
      · have hlen : acc.length = cap := le_antisymm h (not_lt.mp hlt)
        rcases acc with _ | ⟨a, t⟩
        · simp at hlen; omega
        · simp only [List.length_cons] at hlen
          rw [show dequeAppend cap (a :: t) e = t ++ [e] from by
              simp [dequeAppend]; omega]
          rw [ih (t ++ [e]) (by simp; omega)]
          have h1 : ((t ++ [e]) ++ es).length - cap = es.length := by
            simp; omega
          have h2 : ((a :: t) ++ e :: es).length - cap = es.length + 1 := by
            simp; omega
          rw [h1, h2]
          simp [List.append_assoc]

namespace FerStatusTracker

theorem logResults_recent_results (args : List LogResultArgs) :
    ∀ st : FerState,
      (logResults st args).recent_results
        = (args.map logResultEntry).foldl (dequeAppend 100)
            st.recent_results ∧
      (logResults st args).recent_requests = st.recent_requests := by
  induction args with
  | nil => intro st; exact ⟨rfl, rfl⟩
  | cons a args ih =>
      intro st
      exact ih ⟨st.recent_requests,
        dequeAppend 100 st.recent_results (logResultEntry a)⟩

end FerStatusTracker

namespace StatusTracker

theorem stLogResults_recent_results (args : List STLogResultArgs) :
    ∀ st : STState,
      (stLogResults st args).recent_results
        = (args.map stLogResultEntry).foldl (dequeAppend 100)
            st.recent_results ∧
      (stLogResults st args).recent_requests = st.recent_requests := by
  induction args with
  | nil => intro st; exact ⟨rfl, rfl⟩
  | cons a args ih =>
      intro st
      exact ih ⟨st.recent_requests,
        dequeAppend 100 st.recent_results (stLogResultEntry a)⟩

end StatusTracker

/-- C3: appending more than 100 result entries to an empty log keeps
exactly the 100 most recent ones (the earlier ones are evicted), and a
query with the full count as limit returns exactly those 100 entries,
newest first; this holds for `fer_status_tracker` (`log_result` /
`read_recent_results`) and for `StatusTracker` (`log_result` /
`get_recent_results`). -/
theorem c3_ring_eviction_query :
    (∀ args : List FerStatusTracker.LogResultArgs, 100 < args.length →
      (FerStatusTracker.logResults FerStatusTracker.emptyFerState
          args).recent_results
        = (args.map FerStatusTracker.logResultEntry).drop
            (args.length - 100) ∧
      FerStatusTracker.read_recent_results
          (FerStatusTracker.logResults FerStatusTracker.emptyFerState args)
          args.length none
        = ((args.map FerStatusTracker.logResultEntry).drop
            (args.length - 100)).reverse ∧
      (FerStatusTracker.read_recent_results
          (FerStatusTracker.logResults FerStatusTracker.emptyFerState args)
          args.length none).length = 100) ∧
    (∀ args : List StatusTracker.STLogResultArgs, 100 < args.length →
      (StatusTracker.stLogResults StatusTracker.emptySTState
          args).recent_results
        = (args.map StatusTracker.stLogResultEntry).drop
            (args.length - 100) ∧
      StatusTracker.get_recent_results
          (StatusTracker.stLogResults StatusTracker.emptySTState args)
          args.length
        = ((args.map StatusTracker.stLogResultEntry).drop
            (args.length - 100)).reverse ∧
      (StatusTracker.get_recent_results
          (StatusTracker.stLogResults StatusTracker.emptySTState args)
          args.length).length = 100) := by
  constructor
  · intro args h
    have hres :
        (FerStatusTracker.logResults FerStatusTracker.emptyFerState
            args).recent_results
          = (args.map FerStatusTracker.logResultEntry).drop
              (args.length - 100) := by
      rw [(FerStatusTracker.logResults_recent_results args
        FerStatusTracker.emptyFerState).1,
        show FerStatusTracker.emptyFerState.recent_results = [] from rfl,
        foldl_dequeAppend_eq_drop 100 (by norm_num) _ [] (by simp)]
      simp
    have hlen :
        ((args.map FerStatusTracker.logResultEntry).drop
          (args.length - 100)).length = 100 := by
      simp; omega
    refine ⟨hres, ?_, ?_⟩
    · show ((FerStatusTracker.logResults FerStatusTracker.emptyFerState
          args).recent_results.reverse.take args.length) = _
      rw [hres, List.take_of_length_le (by simp [hlen]; omega)]
    · show ((FerStatusTracker.logResults FerStatusTracker.emptyFerState
          args).recent_results.reverse.take args.length).length = 100
      rw [hres, List.take_of_length_le (by simp [hlen]; omega)]
      simpa using hlen
  · intro args h
    have hres :
        (StatusTracker.stLogResults StatusTracker.emptySTState
            args).recent_results
          = (args.map StatusTracker.stLogResultEntry).drop
              (args.length - 100) := by
      rw [(StatusTracker.stLogResults_recent_results args
        StatusTracker.emptySTState).1,
        show StatusTracker.emptySTState.recent_results = [] from rfl,
        foldl_dequeAppend_eq_drop 100 (by norm_num) _ [] (by simp)]
      simp
    have hlen :
        ((args.map StatusTracker.stLogResultEntry).drop
          (args.length - 100)).length = 100 := by
      simp; omega
    refine ⟨hres, ?_, ?_⟩
    · show (if args.length = 0 then _ else _ : List _).reverse = _
      rw [if_neg (by omega), hres, hlen,
        show 100 - args.length = 0 from by omega,
        List.drop_zero]
    · show ((if args.length = 0 then _ else _ : List _).reverse).length = 100
      rw [if_neg (by omega), hres, hlen,
        show 100 - args.length = 0 from by omega,
        List.drop_zero]
      simpa using hlen

/-- Witness for C3 at a batch of 101 appends on each log. -/
theorem c3_ring_eviction_query_witness :
    (100 < ferArgsSample.length ∧
      ((FerStatusTracker.logResults FerStatusTracker.emptyFerState
          ferArgsSample).recent_results
        = (ferArgsSample.map FerStatusTracker.logResultEntry).drop
            (ferArgsSample.length - 100) ∧
      FerStatusTracker.read_recent_results
          (FerStatusTracker.logResults FerStatusTracker.emptyFerState
            ferArgsSample) ferArgsSample.length none
        = ((ferArgsSample.map FerStatusTracker.logResultEntry).drop
            (ferArgsSample.length - 100)).reverse ∧
      (FerStatusTracker.read_recent_results
          (FerStatusTracker.logResults FerStatusTracker.emptyFerState
            ferArgsSample) ferArgsSample.length none).length = 100)) ∧
    (100 < stArgsSample.length ∧
      ((StatusTracker.stLogResults StatusTracker.emptySTState
          stArgsSample).recent_results
        = (stArgsSample.map StatusTracker.stLogResultEntry).drop
            (stArgsSample.length - 100) ∧
      StatusTracker.get_recent_results
          (StatusTracker.stLogResults StatusTracker.emptySTState
            stArgsSample) stArgsSample.length
        = ((stArgsSample.map StatusTracker.stLogResultEntry).drop
            (stArgsSample.length - 100)).reverse ∧
      (StatusTracker.get_recent_results
          (StatusTracker.stLogResults StatusTracker.emptySTState
            stArgsSample) stArgsSample.length).length = 100)) :=
  ⟨⟨by decide, c3_ring_eviction_query.1 ferArgsSample (by decide)⟩,
    ⟨by decide, c3_ring_eviction_query.2 stArgsSample (by decide)⟩⟩

/-! ### Error handling and frame properties of the event logs -/

theorem dequeAppend_getLast? {α : Type} (cap : Nat) (l : List α) (e : α) :
    (dequeAppend cap l e).getLast? = some e := by
  unfold dequeAppend
  split <;> simp

/-- C7: the log operations of `fer_status_tracker.py` are total: for every
state and every well-formed input, the `try` bodies of `log_request`,
`log_result`, `read_recent_requests` and `read_recent_results` finish with
a value (never with a raised error), and the public functions return that
value — the `except` fallbacks are never engaged, so the only observable
effect is the capacity-bounded append. -/
theorem c7_log_ops_never_raise :
    ∀ (st : FerStatusTracker.FerState) (u t e : String) (c : ℚ) (d : Bool)
      (f : Option String) (limit : Nat) (uid : Option String),
      FerStatusTracker.log_request_body st u t f
        = Except.ok (FerStatusTracker.log_request st u t f) ∧
      FerStatusTracker.log_result_body st u t e c d f
        = Except.ok (FerStatusTracker.log_result st u t e c d f) ∧
      FerStatusTracker.read_recent_requests_body st limit uid
        = Except.ok (FerStatusTracker.read_recent_requests st limit uid) ∧
      FerStatusTracker.read_recent_results_body st limit uid
        = Except.ok (FerStatusTracker.read_recent_results st limit uid) :=
  fun _ _ _ _ _ _ _ _ _ => ⟨rfl, rfl, rfl, rfl⟩

/-- C8: the request log and the result log share no state: `log_request`
only changes the request deque, `log_result` only changes the result
deque, clearing one leaves reads of the other unchanged, and each read is
unaffected by any operation on the other log. -/
theorem c8_log_independence :
    ∀ (st : FerStatusTracker.FerState) (u1 t1 : String) (f1 : Option String)
      (u2 t2 e2 : String) (c2 : ℚ) (d2 : Bool) (f2 : Option String)
      (limit : Nat) (uid : Option String),
      (FerStatusTracker.log_request st u1 t1 f1).recent_results
        = st.recent_results ∧
      (FerStatusTracker.log_result st u2 t2 e2 c2 d2 f2).recent_requests
        = st.recent_requests ∧
      FerStatusTracker.read_recent_requests
          (FerStatusTracker.log_result st u2 t2 e2 c2 d2 f2) limit uid
        = FerStatusTracker.read_recent_requests st limit uid ∧
      FerStatusTracker.read_recent_results
          (FerStatusTracker.log_request st u1 t1 f1) limit uid
        = FerStatusTracker.read_recent_results st limit uid ∧
      FerStatusTracker.read_recent_requests
          (FerStatusTracker.clear_results st) limit uid
        = FerStatusTracker.read_recent_requests st limit uid ∧
      FerStatusTracker.read_recent_results
          (FerStatusTracker.clear_requests st) limit uid
        = FerStatusTracker.read_recent_results st limit uid :=
  fun _ _ _ _ _ _ _ _ _ _ _ _ => ⟨rfl, rfl, rfl, rfl, rfl, rfl⟩

/-- C10: a request append stores the default filename string
`"image.jpg"` exactly when the supplied filename is absent (`None`) or
empty, and stores the supplied filename unchanged otherwise; this holds
for `fer_status_tracker.log_request` and `StatusTracker.log_request`. -/
theorem c10_filename_default :
    ∀ (st : FerStatusTracker.FerState) (stt : StatusTracker.STState)
      (u t : String) (f : Option String),
      ((f = none ∨ f = some "") →
        (FerStatusTracker.log_request st u t f).recent_requests.getLast?
          = some ⟨u, t, "image.jpg", "received"⟩ ∧
        (StatusTracker.log_request stt u t f).recent_requests.getLast?
          = some ⟨u, t, "image.jpg", "received"⟩) ∧
      (∀ s, f = some s → s ≠ "" →
        (FerStatusTracker.log_request st u t f).recent_requests.getLast?
          = some ⟨u, t, s, "received"⟩ ∧
        (StatusTracker.log_request stt u t f).recent_requests.getLast?
          = some ⟨u, t, s, "received"⟩) := by
  intro st stt u t f
  constructor
  · rintro (rfl | rfl) <;>
      exact ⟨by simp [FerStatusTracker.log_request,
          FerStatusTracker.log_request_body, pyTry, pyOr, pure, Except.pure,
          dequeAppend_getLast?],
        by simp [StatusTracker.log_request, pyOr, dequeAppend_getLast?]⟩
  · rintro s rfl hs
    exact ⟨by simp [FerStatusTracker.log_request,
        FerStatusTracker.log_request_body, pyTry, pyOr, pure, Except.pure, hs,
        dequeAppend_getLast?],
      by simp [StatusTracker.log_request, pyOr, hs, dequeAppend_getLast?]⟩

/-- Witness for C10 at an absent and at a present filename. -/
theorem c10_filename_default_witness :
    ((FerStatusTracker.log_request FerStatusTracker.emptyFerState "u" "t"
        none).recent_requests.getLast?
      = some ⟨"u", "t", "image.jpg", "received"⟩) ∧
    ((FerStatusTracker.log_request FerStatusTracker.emptyFerState "u" "t"
        (some "selfie.png")).recent_requests.getLast?
      = some ⟨"u", "t", "selfie.png", "received"⟩) :=
  ⟨((c10_filename_default FerStatusTracker.emptyFerState
      StatusTracker.emptySTState "u" "t" none).1 (Or.inl rfl)).1,
    ((c10_filename_default FerStatusTracker.emptyFerState
      StatusTracker.emptySTState "u" "t" (some "selfie.png")).2
      "selfie.png" rfl (by decide)).1⟩

namespace StatusTracker

/-! ### Properties of the StatusTracker query loop -/

theorem get_recent_requests_loop_length_le
    (parse : String → Option Int) (cutoff : Int) (limit : Nat)
    (xs : List ReqEntry) :
    ∀ acc : List ReqEntry, acc.length < limit →
      (get_recent_requests_loop parse cutoff limit xs acc).length ≤ limit := by
  induction xs with
  | nil =>
      intro acc h
      exact le_of_lt h
  | cons e xs ih =>
      intro acc h
      unfold get_recent_requests_loop
      cases parse e.timestamp with
      | none => exact ih acc h
      | some t =>
          by_cases hc : cutoff ≤ t
          · simp only [hc, if_true]
            by_cases hstop : limit ≤ (acc ++ [e]).length
            · simp only [hstop, if_true]
              simp at hstop ⊢
              omega
            · simp only [hstop, if_false]
              exact ih (acc ++ [e]) (by simp at hstop ⊢; omega)
          · simp only [hc, if_false]
            exact ih acc h

theorem get_recent_requests_loop_spec
    (parse : String → Option Int) (cutoff : Int) (limit : Nat)
    (xs : List ReqEntry) :
    ∀ acc : List ReqEntry,
      ∃ s : List ReqEntry,
        get_recent_requests_loop parse cutoff limit xs acc = acc ++ s ∧
        s.Sublist xs ∧
        ∀ e ∈ s, ∃ t0, parse e.timestamp = some t0 ∧ cutoff ≤ t0 := by
  induction xs with
  | nil =>
      intro acc
      exact ⟨[], by simp [get_recent_requests_loop]⟩
  | cons e xs ih =>
      intro acc
      unfold get_recent_requests_loop
      cases hp : parse e.timestamp with
      | none =>
          obtain ⟨s, heq, hsub, hmem⟩ := ih acc
          exact ⟨s, heq, hsub.cons e, hmem⟩
      | some t =>
          by_cases hc : cutoff ≤ t
          · simp only [hc, if_true]
            by_cases hstop : limit ≤ (acc ++ [e]).length
            · simp only [hstop, if_true]
              refine ⟨[e], rfl, List.Sublist.cons₂ e (List.nil_sublist xs), ?_⟩
              intro x hx
              simp at hx
              subst hx
              exact ⟨t, hp, hc⟩
            · simp only [hstop, if_false]
              obtain ⟨s, heq, hsub, hmem⟩ := ih (acc ++ [e])
              refine ⟨e :: s, by simpa [List.append_assoc] using heq,
                hsub.cons₂ e, ?_⟩
              intro x hx
              rcases List.mem_cons.mp hx with rfl | hx
              · exact ⟨t, hp, hc⟩
              · exact hmem x hx
          · simp only [hc, if_false]
            obtain ⟨s, heq, hsub, hmem⟩ := ih acc
            exact ⟨s, heq, hsub.cons e, hmem⟩

theorem get_recent_requests_loop_filter_parseable
    (parse : String → Option Int) (cutoff : Int) (limit : Nat)
    (xs : List ReqEntry) :
    ∀ acc : List ReqEntry,
      get_recent_requests_loop parse cutoff limit xs acc
        = get_recent_requests_loop parse cutoff limit
            (xs.filter (fun e => (parse e.timestamp).isSome)) acc := by
  induction xs with
  | nil => intro acc; rfl
  | cons e xs ih =>
      intro acc
      cases hp : parse e.timestamp with
      | none =>
          rw [show (e :: xs).filter (fun e => (parse e.timestamp).isSome)
              = xs.filter (fun e => (parse e.timestamp).isSome) from by
            simp [List.filter_cons, hp]]
          rw [show get_recent_requests_loop parse cutoff limit (e :: xs) acc
              = get_recent_requests_loop parse cutoff limit xs acc from by
            conv_lhs => unfold get_recent_requests_loop
            rw [hp]]
          exact ih acc
      | some t =>
          rw [show (e :: xs).filter (fun e => (parse e.timestamp).isSome)
              = e :: xs.filter (fun e => (parse e.timestamp).isSome) from by
            simp [List.filter_cons, hp]]
          rw [show get_recent_requests_loop parse cutoff limit (e :: xs) acc
              = (if cutoff ≤ t then
                  (if limit ≤ (acc ++ [e]).length then acc ++ [e]
                    else get_recent_requests_loop parse cutoff limit xs
                      (acc ++ [e]))
                else get_recent_requests_loop parse cutoff limit xs acc)
              from by
            conv_lhs => unfold get_recent_requests_loop
            rw [hp]]
          rw [show get_recent_requests_loop parse cutoff limit
                (e :: xs.filter (fun e => (parse e.timestamp).isSome)) acc
              = (if cutoff ≤ t then
                  (if limit ≤ (acc ++ [e]).length then acc ++ [e]
                    else get_recent_requests_loop parse cutoff limit
                      (xs.filter (fun e => (parse e.timestamp).isSome))
                      (acc ++ [e]))
                else get_recent_requests_loop parse cutoff limit
                  (xs.filter (fun e => (parse e.timestamp).isSome)) acc)
              from by
            conv_lhs => unfold get_recent_requests_loop
            rw [hp]]
          by_cases hc : cutoff ≤ t
          · simp only [hc, if_true]
            by_cases hstop : limit ≤ (acc ++ [e]).length
            · simp only [hstop, if_true]
            · simp only [hstop, if_false]
              exact ih (acc ++ [e])
          · simp only [hc, if_false]
            exact ih acc

end StatusTracker

/-- `read_recent_requests` computed in closed form: reverse the snapshot,
filter when the identity filter is truthy, take the first `limit`. -/
theorem FerStatusTracker.read_recent_requests_eq
    (st : FerStatusTracker.FerState) (limit : Nat)
    (uid : Option String) :
    FerStatusTracker.read_recent_requests st limit uid
      = (match uid with
          | none => st.recent_requests.reverse
          | some s =>
              if s = "" then st.recent_requests.reverse
              else st.recent_requests.reverse.filter
                (fun e => e.user_id = s)).take limit := rfl

/-- C4 fails as stated, in two ways.  First, when the identity filter is
given as the empty string, `read_recent_requests` ignores it (Python
truthiness treats `""` as absent) and returns an entry whose identity is
not the filter value.  Second, `StatusTracker.get_recent_requests` with
`limit = 0` returns one entry rather than none, because the loop checks
the limit only after appending a matching entry. -/
theorem c4_query_contract_counterexample :
    FerStatusTracker.read_recent_requests ⟨[reqA], []⟩ 5 (some "")
      = [reqA] ∧
    reqA.user_id ≠ "" ∧
    (StatusTracker.get_recent_requests ⟨[reqA], []⟩ (fun _ => some 0) 0 0
      0).length = 1 ∧
    ¬ (StatusTracker.get_recent_requests ⟨[reqA], []⟩ (fun _ => some 0) 0 0
      0).length ≤ 0 := by
  refine ⟨rfl, by decide, rfl, by decide⟩

/-- C4 (amended): every query returns entries newest first (a sublist of
the reversed insertion order), restricted to the identity filter when it
is given and non-empty, and restricted to entries whose timestamp is at
or after the cutoff; the result has at most `limit` entries provided
`limit ≥ 1` for `StatusTracker.get_recent_requests` (for
`read_recent_requests` the bound needs no side condition, and is stated
for the same inputs). -/
theorem c4_query_contract_amended :
    ∀ (st : FerStatusTracker.FerState) (limit : Nat) (uid : Option String)
      (stt : StatusTracker.STState) (parse : String → Option Int)
      (now minutes : Int) (limit2 : Nat), 1 ≤ limit2 →
      (FerStatusTracker.read_recent_requests st limit uid).length ≤ limit ∧
      (FerStatusTracker.read_recent_requests st limit uid).Sublist
        st.recent_requests.reverse ∧
      (∀ s, uid = some s → s ≠ "" →
        ∀ e ∈ FerStatusTracker.read_recent_requests st limit uid,
          e.user_id = s) ∧
      (StatusTracker.get_recent_requests stt parse now minutes
        limit2).length ≤ limit2 ∧
      (StatusTracker.get_recent_requests stt parse now minutes
        limit2).Sublist stt.recent_requests.reverse ∧
      (∀ e ∈ StatusTracker.get_recent_requests stt parse now minutes limit2,
        ∃ t0, parse e.timestamp = some t0 ∧ now - minutes * 60 ≤ t0) := by
  intro st limit uid stt parse now minutes limit2 hlim
  obtain ⟨s, heq2, hsub, hmem⟩ :=
    StatusTracker.get_recent_requests_loop_spec parse (now - minutes * 60)
      limit2 stt.recent_requests.reverse []
  have hg : StatusTracker.get_recent_requests stt parse now minutes limit2
      = s := by
    simpa [StatusTracker.get_recent_requests] using heq2
  refine ⟨?_, ?_, ?_, ?_, ?_, ?_⟩
  · rw [FerStatusTracker.read_recent_requests_eq]
    exact List.length_take_le _ _
  · rw [FerStatusTracker.read_recent_requests_eq]
    refine (List.take_sublist _ _).trans ?_
    rcases uid with _ | u
    · exact List.Sublist.refl _
    · dsimp only
      split
      · exact List.Sublist.refl _
      · exact List.filter_sublist _
  · rintro u rfl hu e he
    rw [FerStatusTracker.read_recent_requests_eq] at he
    simp only [if_neg hu] at he
    have h2 := List.mem_filter.mp (List.mem_of_mem_take he)
    simpa using h2.2
  · have := StatusTracker.get_recent_requests_loop_length_le parse
      (now - minutes * 60) limit2 stt.recent_requests.reverse []
      (by simpa using hlim)
    exact this
  · rw [hg]; exact hsub
  · intro e he
    rw [hg] at he
    exact hmem e he

/-- Witness for the amended C4 at a concrete log, filter and limits. -/
theorem c4_query_contract_amended_witness :
    (FerStatusTracker.read_recent_requests ⟨[reqA], []⟩ 3
      (some "alice")).length ≤ 3 ∧
    (FerStatusTracker.read_recent_requests ⟨[reqA], []⟩ 3
      (some "alice")).Sublist
      (FerStatusTracker.FerState.recent_requests ⟨[reqA], []⟩).reverse ∧
    (∀ u, (some "alice" : Option String) = some u → u ≠ "" →
      ∀ e ∈ FerStatusTracker.read_recent_requests ⟨[reqA], []⟩ 3
          (some "alice"), e.user_id = u) ∧
    (StatusTracker.get_recent_requests ⟨[reqA], []⟩ parseA 5 0 2).length
      ≤ 2 ∧
    (StatusTracker.get_recent_requests ⟨[reqA], []⟩ parseA 5 0 2).Sublist
      (StatusTracker.STState.recent_requests ⟨[reqA], []⟩).reverse ∧
    (∀ e ∈ StatusTracker.get_recent_requests ⟨[reqA], []⟩ parseA 5 0 2,
      ∃ t0, parseA e.timestamp = some t0 ∧ 5 - 0 * 60 ≤ t0) :=
  c4_query_contract_amended ⟨[reqA], []⟩ 3 (some "alice") ⟨[reqA], []⟩
    parseA 5 0 2 (by decide)

/-- C9: `StatusTracker.get_recent_requests` silently omits entries whose
stored timestamp does not parse: no returned entry has an unparseable
timestamp, and the call returns exactly what it returns on the log with
the unparseable entries removed, so they do not count toward the limit;
the function is total, reflecting that `except: continue` keeps the call
from raising. -/
theorem c9_unparseable_timestamps_omitted :
    ∀ (stt : StatusTracker.STState) (parse : String → Option Int)
      (now minutes : Int) (limit : Nat),
      (∀ e ∈ StatusTracker.get_recent_requests stt parse now minutes limit,
        (parse e.timestamp).isSome) ∧
      StatusTracker.get_recent_requests stt parse now minutes limit
        = StatusTracker.get_recent_requests
            ⟨stt.recent_requests.filter
                (fun e => (parse e.timestamp).isSome),
              stt.recent_results⟩ parse now minutes limit := by
  intro stt parse now minutes limit
  constructor
  · intro e he
    obtain ⟨s, heq2, hsub, hmem⟩ :=
      StatusTracker.get_recent_requests_loop_spec parse
        (now - minutes * 60) limit stt.recent_requests.reverse []
    have hg : StatusTracker.get_recent_requests stt parse now minutes limit
        = s := by
      simpa [StatusTracker.get_recent_requests] using heq2
    rw [hg] at he
    obtain ⟨t0, ht, _⟩ := hmem e he
    simp [ht]
  · show StatusTracker.get_recent_requests_loop parse (now - minutes * 60)
        limit stt.recent_requests.reverse [] = _
    rw [StatusTracker.get_recent_requests_loop_filter_parseable]
    show _ = StatusTracker.get_recent_requests_loop parse
        (now - minutes * 60) limit
        (stt.recent_requests.filter
          (fun e => (parse e.timestamp).isSome)).reverse []
    rw [List.filter_reverse]

/-- Witness for C9 on a log holding one malformed and one parseable
timestamp. -/
theorem c9_unparseable_timestamps_omitted_witness :
    (∀ e ∈ StatusTracker.get_recent_requests ⟨[reqB, reqA], []⟩ parseB 0 0
        5, (parseB e.timestamp).isSome) ∧
    StatusTracker.get_recent_requests ⟨[reqB, reqA], []⟩ parseB 0 0 5
      = StatusTracker.get_recent_requests
          ⟨(List.filter (fun e => (parseB e.timestamp).isSome)
              (StatusTracker.STState.recent_requests ⟨[reqB, reqA], []⟩)),
            StatusTracker.STState.recent_results ⟨[reqB, reqA], []⟩⟩
          parseB 0 0 5 :=
  c9_unparseable_timestamps_omitted ⟨[reqB, reqA], []⟩ parseB 0 0 5

/-- C1: an `Ingest` call returns a non-empty result exactly when the
elapsed time since the window's first observation (the triggering
observation itself when the window was empty) has reached `duration`,
and immediately after a returning call the identity's window is empty.
Quantifying over every buffer state covers every state reachable by any
sequence of `Ingest` calls. -/
theorem c1_exactly_once_closure :
    ∀ (duration : Nat) (st : AggState) (identity label : String)
      (confidence : ℚ) (now : Nat),
      (((Ingest duration st identity label confidence now).1).isSome ↔
        duration ≤ now -
          (match st identity with
            | [] => now
            | o :: _ => o.timestamp)) ∧
      (((Ingest duration st identity label confidence now).1).isSome →
        (Ingest duration st identity label confidence now).2 identity
          = []) := by
  intro duration st identity label confidence now
  by_cases h : duration ≤ now -
      (match st identity with
        | [] => now
        | o :: _ => o.timestamp)
  · refine ⟨⟨fun _ => h, fun _ => ?_⟩, fun _ => ?_⟩
    · simp [Ingest, h]
    · simp [Ingest, h]
  · constructor
    · constructor
      · intro hs
        exfalso
        simp [Ingest, h] at hs
      · intro hh
        exact absurd hh h
    · intro hs
      exfalso
      simp [Ingest, h] at hs

/-- Witness for C1 at a zero-duration ingest on an empty buffer. -/
theorem c1_exactly_once_closure_witness :
    ((((Ingest 0 emptyAggState "u1" "happy" (9 / 10) 7).1).isSome ↔
      0 ≤ 7 -
        (match emptyAggState "u1" with
          | [] => 7
          | o :: _ => o.timestamp)) ∧
    ((((Ingest 0 emptyAggState "u1" "happy" (9 / 10) 7).1)).isSome →
      (Ingest 0 emptyAggState "u1" "happy" (9 / 10) 7).2 "u1" = [])) :=
  c1_exactly_once_closure 0 emptyAggState "u1" "happy" (9 / 10) 7

theorem selectWinner_foldl_mem (cs : List Observation) :
    ∀ c : Observation,
      cs.foldl
          (fun best o => if best.confidence < o.confidence then o
            else best) c = c ∨
      cs.foldl
          (fun best o => if best.confidence < o.confidence then o
            else best) c ∈ cs := by
  induction cs with
  | nil => intro c; exact Or.inl rfl
  | cons x cs ih =>
      intro c
      rw [List.foldl_cons]
      rcases ih (if c.confidence < x.confidence then x else c) with h | h
      · rw [h]
        by_cases hc : c.confidence < x.confidence
        · simp [hc]
        · simp [hc]
      · exact Or.inr (List.mem_cons_of_mem x h)

theorem selectWinner_spec (w : List Observation) :
    ((∀ o ∈ w, o.label = "none") → selectWinner w = ("none", 0)) ∧
    ((∃ o ∈ w, o.label ≠ "none") →
      ∃ o ∈ w, o.label ≠ "none" ∧
        selectWinner w = (o.label, o.confidence)) := by
  cases hc : w.filter (fun o => o.label ≠ "none") with
  | nil =>
      constructor
      · intro _
        unfold selectWinner
        rw [hc]
      · rintro ⟨o, ho, hol⟩
        exfalso
        have : o ∈ w.filter (fun o => o.label ≠ "none") := by
          simp [List.mem_filter, ho, hol]
        rw [hc] at this
        exact absurd this (List.not_mem_nil o)
  | cons c cs =>
      have hcmem : c ∈ w.filter (fun o => o.label ≠ "none") := by
        rw [hc]; exact List.mem_cons_self c cs
      constructor
      · intro hall
        exfalso
        have h2 := List.mem_filter.mp hcmem
        have h3 := hall c h2.1
        simp [h3] at h2
      · intro _
        have hwinner :
            (cs.foldl
              (fun best o => if best.confidence < o.confidence then o
                else best) c) ∈ w.filter (fun o => o.label ≠ "none") := by
          rcases selectWinner_foldl_mem cs c with h | h
          · rw [h]; exact hcmem
          · rw [hc]; exact List.mem_cons_of_mem c h
        have h2 := List.mem_filter.mp hwinner
        refine ⟨_, h2.1, by simpa using h2.2, ?_⟩
        unfold selectWinner
        rw [hc]

/-- C5: when an `Ingest` call closes a window, the emitted result never
carries the sentinel label as long as some observation of the window is
not the sentinel (the winner is such an observation), and a window made
only of sentinel observations emits the sentinel label with confidence
0. -/
theorem c5_sentinel_fallback :
    ∀ (duration : Nat) (st : AggState) (identity label : String)
      (confidence : ℚ) (now : Nat) (r : AggregatedResult),
      (Ingest duration st identity label confidence now).1 = some r →
      ((∀ o ∈ st identity ++ [⟨now, label, confidence⟩],
          o.label = "none") →
        r.label = "none" ∧ r.confidence = 0) ∧
      ((∃ o ∈ st identity ++ [⟨now, label, confidence⟩],
          o.label ≠ "none") →
        ∃ o ∈ st identity ++ [⟨now, label, confidence⟩],
          o.label ≠ "none" ∧ r.label = o.label ∧
            r.confidence = o.confidence) := by
  intro duration st identity label confidence now r hr
  by_cases h : duration ≤ now -
      (match st identity with
        | [] => now
        | o :: _ => o.timestamp)
  · rw [show r = (⟨identity,
        (selectWinner (st identity
          ++ [(⟨now, label, confidence⟩ : Observation)])).1,
        (selectWinner (st identity
          ++ [(⟨now, label, confidence⟩ : Observation)])).2,
        (st identity).length + 1⟩ :
          AggregatedResult) from by
      have h2 := hr
      simp [Ingest, h] at h2
      exact h2.symm]
    constructor
    · intro hall
      have h1 := (selectWinner_spec _).1 hall
      exact ⟨by rw [h1], by rw [h1]⟩
    · intro hex
      obtain ⟨o, ho, hol, heq⟩ := (selectWinner_spec _).2 hex
      exact ⟨o, ho, hol, by rw [heq], by rw [heq]⟩
  · exfalso
    simp [Ingest, h] at hr

/-- Witness for C5 at a closing ingest over an all-sentinel window. -/
theorem c5_sentinel_fallback_witness :
    ((∀ o ∈ emptyAggState "u1" ++ [⟨3, "none", 0⟩], o.label = "none") →
      (⟨"u1", "none", 0, 1⟩ : AggregatedResult).label = "none" ∧
        (⟨"u1", "none", 0, 1⟩ : AggregatedResult).confidence = 0) ∧
    ((∃ o ∈ emptyAggState "u1" ++ [⟨3, "none", 0⟩], o.label ≠ "none") →
      ∃ o ∈ emptyAggState "u1" ++ [⟨3, "none", 0⟩],
        o.label ≠ "none" ∧
          (⟨"u1", "none", 0, 1⟩ : AggregatedResult).label = o.label ∧
          (⟨"u1", "none", 0, 1⟩ : AggregatedResult).confidence
            = o.confidence) :=
  c5_sentinel_fallback 0 emptyAggState "u1" "none" 0 3
    ⟨"u1", "none", 0, 1⟩ rfl

/-- C6: when the persistence write is attempted (non-sentinel emotion,
client present) and the sink raises, the handler records
`db_write_success = False` in the result entry, still appends that entry
as the newest element of the result log, leaves the request log
untouched, and still returns the classification result to the caller —
the state equals a plain `log_result` with `db_write_success = False`,
so nothing is retried, rolled back, or surfaced as an error. -/
theorem c6_persistence_failure_recorded :
    ∀ (st : FerStatusTracker.FerState) (validated_id timestamp : String)
      (result : FerPrediction) (filename : Option String),
      pyLower result.emotion ≠ "none" →
      (detect_emotion_tail true true st validated_id timestamp result
          filename).2 = result ∧
      (detect_emotion_tail true true st validated_id timestamp result
          filename).1.recent_requests = st.recent_requests ∧
      (detect_emotion_tail true true st validated_id timestamp result
          filename).1.recent_results.getLast?
        = some ⟨validated_id, timestamp, pyOr filename "image.jpg",
            result.emotion, result.confidence, false, "completed"⟩ ∧
      (detect_emotion_tail true true st validated_id timestamp result
          filename).1
        = FerStatusTracker.log_result st validated_id timestamp
            result.emotion result.confidence false filename := by
  intro st validated_id timestamp result filename hemo
  refine ⟨rfl, ?_, ?_, ?_⟩
  · simp [detect_emotion_tail, FerStatusTracker.log_result,
      FerStatusTracker.log_result_body, pyTry, pure, Except.pure]
  · simp [detect_emotion_tail, FerStatusTracker.log_result,
      FerStatusTracker.log_result_body, pyTry, pure, Except.pure,
      dequeAppend_getLast?]
  · simp [detect_emotion_tail]

/-- Witness for C6 at a concrete state and non-sentinel prediction. -/
theorem c6_persistence_failure_recorded_witness :
    (detect_emotion_tail true true FerStatusTracker.emptyFerState "u" "t"
        ⟨"happy", 9 / 10⟩ none).2 = ⟨"happy", 9 / 10⟩ ∧
    (detect_emotion_tail true true FerStatusTracker.emptyFerState "u" "t"
        ⟨"happy", 9 / 10⟩ none).1.recent_requests
      = FerStatusTracker.emptyFerState.recent_requests ∧
    (detect_emotion_tail true true FerStatusTracker.emptyFerState "u" "t"
        ⟨"happy", 9 / 10⟩ none).1.recent_results.getLast?
      = some ⟨"u", "t", pyOr none "image.jpg", FerPrediction.emotion
          ⟨"happy", 9 / 10⟩, FerPrediction.confidence ⟨"happy", 9 / 10⟩,
          false, "completed"⟩ ∧
    (detect_emotion_tail true true FerStatusTracker.emptyFerState "u" "t"
        ⟨"happy", 9 / 10⟩ none).1
      = FerStatusTracker.log_result FerStatusTracker.emptyFerState "u" "t"
          (FerPrediction.emotion ⟨"happy", 9 / 10⟩)
          (FerPrediction.confidence ⟨"happy", 9 / 10⟩) false none :=
  c6_persistence_failure_recorded FerStatusTracker.emptyFerState "u" "t"
    ⟨"happy", 9 / 10⟩ none (by decide)
